import Mathlib

/-!
Shallow embedding of the TextToMidi converter (src/main.py) and proofs about
its note resolver (`normalize_note_name`, `note_to_midi`) and score compiler
(`parse_text_to_midi`).

Modelling conventions:
- Python strings are Lean `String`s (lists of characters).  The helpers
  `pyStrip`, `pyUpper`, `pySplitWs`, `pySplitChar`, `pySplitlines` model
  `str.strip()`, `str.upper()`, `str.split()`, `str.split(sep)` and
  `str.splitlines()` for ASCII text with newline `\n` (the whitespace set is
  space, tab, CR, LF; no claim depends on the exotic Python whitespace or
  line-break characters).
- Python exceptions become the `Except PyError` monad; `ValueError`,
  `KeyError`, `TypeError` and `ZeroDivisionError` are the kinds main.py can
  raise.  A `try/except ValueError` becomes a match that catches only the
  `valueError` constructor.
- `float(s)` is modelled by `parseFloat?`, restricted to optional sign plus
  decimal digits with an optional decimal point, returning the exact rational
  value of the literal.  Exponents, `inf`/`nan` and IEEE-754 rounding of the
  literal are not modelled; every concrete duration used below is a dyadic
  rational exactly representable in binary64, where this model and Python
  agree bit for bit.  `int(s)` is `parseIntE` (sign plus digits), and `int(x)`
  on a number is `pyTruncInt` (truncation toward zero).
- mido objects: a track is a `List Msg`; `Msg` covers the message kinds the
  program and the specification mention (`program_change`, `note_on`,
  `note_off` and the `set_tempo` meta message the spec expects in the track).
  `MidiFile()` has `ticks_per_beat = 480` (the mido default) and
  `bpm2tempo(bpm)` raises `ZeroDivisionError` at `bpm = 0`; mido-internal
  byte-range validation is outside main.py and not modelled.
-/

/-- Python whitespace test restricted to ASCII: space, tab, CR, LF. -/
def isSpace (c : Char) : Bool := c == ' ' || c == '\t' || c == '\n' || c == '\r'

/-- Strip leading and trailing whitespace from a character list. -/
def stripChars (cs : List Char) : List Char :=
  ((cs.dropWhile isSpace).reverse.dropWhile isSpace).reverse

/-- Model of Python `str.strip()`. -/
def pyStrip (s : String) : String := ⟨stripChars s.data⟩

/-- Model of Python `str.upper()` (ASCII). -/
def pyUpper (s : String) : String := ⟨s.data.map Char.toUpper⟩

/-- Worker for `pySplitWs`: split at whitespace runs, dropping empty pieces. -/
def splitWsAux : List Char → List Char → List String
  | [], acc => if acc = [] then [] else [⟨acc.reverse⟩]
  | c :: cs, acc =>
    if isSpace c then
      if acc = [] then splitWsAux cs []
      else ⟨acc.reverse⟩ :: splitWsAux cs []
    else splitWsAux cs (c :: acc)

/-- Model of Python `str.split()` (no separator: split on whitespace runs). -/
def pySplitWs (s : String) : List String := splitWsAux s.data []

/-- Worker for `pySplitChar`: split at every separator, keeping empty pieces. -/
def splitCharAux (sep : Char) : List Char → List Char → List String
  | [], acc => [⟨acc.reverse⟩]
  | c :: cs, acc =>
    if c = sep then ⟨acc.reverse⟩ :: splitCharAux sep cs []
    else splitCharAux sep cs (c :: acc)

/-- Model of Python `str.split(sep)` for a one-character separator. -/
def pySplitChar (sep : Char) (s : String) : List String := splitCharAux sep s.data []

/-- Model of Python `str.splitlines()` on text whose only line break is `\n`
(the input is always pre-stripped in main.py, so there is no trailing break). -/
def pySplitlines (s : String) : List String :=
  if s.data = [] then [] else pySplitChar '\n' s

/-- Decimal value of a digit list (most significant first). -/
def digitsToNat (cs : List Char) : ℕ := cs.foldl (fun n c => 10 * n + (c.toNat - 48)) 0

/-- Python errors main.py can raise or catch. -/
inductive PyError where
  | valueError (msg : String)
  | keyError (key : String)
  | typeError (msg : String)
  | zeroDivisionError
deriving DecidableEq

instance {ε α : Type} [DecidableEq ε] [DecidableEq α] : DecidableEq (Except ε α) := fun x y =>
  match x, y with
  | .ok a, .ok b =>
    if h : a = b then .isTrue (by rw [h]) else .isFalse (fun hc => by cases hc; exact h rfl)
  | .error a, .error b =>
    if h : a = b then .isTrue (by rw [h]) else .isFalse (fun hc => by cases hc; exact h rfl)
  | .ok _, .error _ => .isFalse (fun hc => by cases hc)
  | .error _, .ok _ => .isFalse (fun hc => by cases hc)

/-- Model of Python `float(s)`: optional sign, decimal digits with an optional
decimal point; returns the exact rational value of the literal, `none` on a
`ValueError` (see the modelling note at the top of the file). -/
def parseFloat? (s : String) : Option ℚ :=
  let cs := stripChars s.data
  let signed : Bool × List Char :=
    match cs with
    | '+' :: r => (false, r)
    | '-' :: r => (true, r)
    | r => (false, r)
  let val? : Option ℚ :=
    match pySplitChar '.' ⟨signed.2⟩ with
    | [ip] =>
      if !ip.data.isEmpty && ip.data.all Char.isDigit then
        some ((digitsToNat ip.data : ℤ) : ℚ)
      else none
    | [ip, fp] =>
      if !(ip.data ++ fp.data).isEmpty && ip.data.all Char.isDigit
          && fp.data.all Char.isDigit then
        some (mkRat (digitsToNat ip.data * 10 ^ fp.data.length + digitsToNat fp.data)
          (10 ^ fp.data.length))
      else none
    | _ => none
  val?.map (fun v => if signed.1 then -v else v)

/-- Model of Python `int(s)`: optional sign plus decimal digits, raising
`ValueError` otherwise. -/
def parseIntE (s : String) : Except PyError ℤ :=
  let cs := stripChars s.data
  let signed : Bool × List Char :=
    match cs with
    | '+' :: r => (false, r)
    | '-' :: r => (true, r)
    | r => (false, r)
  if !signed.2.isEmpty && signed.2.all Char.isDigit then
    .ok (if signed.1 then -(digitsToNat signed.2 : ℤ) else (digitsToNat signed.2 : ℤ))
  else .error (.valueError ("invalid literal for int: " ++ s))

/-- Model of Python `int(x)` on a number: truncation toward zero. -/
def pyTruncInt (q : ℚ) : ℤ := if 0 ≤ q then q.floor else q.ceil

/-- The pitch table of main.py lines 8-10 (`note_map`), as a lookup function;
`none` models a `KeyError` on `note_map[pitch]` and a `False` result of
`pitch in note_map`. -/
def note_map_find (p : String) : Option ℤ :=
  if p = "C" then some 0 else if p = "C#" then some 1
  else if p = "D" then some 2 else if p = "D#" then some 3
  else if p = "E" then some 4 else if p = "F" then some 5
  else if p = "F#" then some 6 else if p = "G" then some 7
  else if p = "G#" then some 8 else if p = "A" then some 9
  else if p = "A#" then some 10 else if p = "B" then some 11
  else none

/-- The flat-to-sharp table of main.py lines 33-41; `flat_to_sharp.get(pitch,
pitch)` returns the argument itself when it is not a key. -/
def flat_to_sharp (p : String) : String :=
  if p = "A" then "G#" else if p = "B" then "A#"
  else if p = "C" then "B" else if p = "D" then "C#"
  else if p = "E" then "D#" else if p = "F" then "E"
  else if p = "G" then "F#" else p

/-- Letter class `[A-G]` of the note regex. -/
def isPitchLetter (c : Char) : Bool := 'A' ≤ c && c ≤ 'G'

/-- Model of `re.match(r"^([A-G])([#B]?)(\d)$", note)` (main.py line 23): the
three captured groups, or `none` when the anchored pattern does not match.
`\d` is modelled as an ASCII digit. -/
def matchNoteGroups (s : String) : Option (String × String × Char) :=
  match s.data with
  | [p, d] =>
    if isPitchLetter p && d.isDigit then some (⟨[p]⟩, "", d) else none
  | [p, a, d] =>
    if isPitchLetter p && (a == '#' || a == 'B') && d.isDigit then
      some (⟨[p]⟩, ⟨[a]⟩, d)
    else none
  | _ => none

/-- Message text of the ValueError raised at main.py line 26. -/
def invalidNoteFormatMsg (note : String) : String := "Invalid note format: " ++ note

/-- Message text of the ValueError raised at main.py line 49. -/
def invalidPitchMsg (p : String) : String := "Note " ++ p ++ " is not valid after normalization"

/-- Model of `normalize_note_name` (main.py lines 12-51): trim and uppercase,
return the rest marker `("R", none)` for `R`/`REST`, otherwise match the note
grammar, remap a flat to its sharp spelling, and look the result up in
`note_map`.  The octave is `none` exactly on the rest path (Python `None`). -/
def normalize_note_name (note0 : String) : Except PyError (String × Option ℤ) :=
  let note := pyUpper (pyStrip note0)
  if note = "R" ∨ note = "REST" then .ok ("R", none)
  else
    match matchNoteGroups note with
    | none => .error (.valueError (invalidNoteFormatMsg note))
    | some (pitch0, accidental0, octave_str) =>
      let pitch := if accidental0 = "B" then flat_to_sharp pitch0 else pitch0
      let accidental := if accidental0 = "B" then "" else accidental0
      let full_pitch := pitch ++ accidental
      let octave : ℤ := (octave_str.toNat - 48 : ℕ)
      match note_map_find full_pitch with
      | none => .error (.valueError (invalidPitchMsg full_pitch))
      | some _ => .ok (full_pitch, some octave)

/-- Model of `note_to_midi` (main.py lines 53-57).  `note == 'R'` compares the
raw token; `12 + note_map[pitch] + 12 * octave` evaluates `note_map[pitch]`
first (a `KeyError` when the pitch is the rest marker `R`), then would raise a
`TypeError` on `12 * None` (unreachable, since the rest path is the only one
returning octave `none` and `R` is not in `note_map`). -/
def note_to_midi (note : String) : Except PyError (Option ℤ) :=
  if note = "R" then .ok none
  else
    match normalize_note_name note with
    | .error e => .error e
    | .ok (pitch, octaveOpt) =>
      match note_map_find pitch with
      | none => .error (.keyError pitch)
      | some off =>
        match octaveOpt with
        | some octave => .ok (some (12 + off + 12 * octave))
        | none => .error (.typeError "unsupported operand type for multiply: NoneType")

/-- The note grammar exactly as the specification words it (section 4.1 step
3): one letter A-G, an optional single accidental `#` or `B`, one mandatory
decimal digit. -/
def specNoteGrammar (s : String) : Bool :=
  match s.data with
  | [p, d] => isPitchLetter p && d.isDigit
  | [p, a, d] => isPitchLetter p && (a == '#' || a == 'B') && d.isDigit
  | _ => false

/-- mido track messages relevant to main.py and the specification.  main.py
appends `program_change`, `note_on` and `note_off`; `setTempo` is the
`set_tempo` meta message the specification expects in the track. -/
inductive Msg where
  | programChange (program : ℤ) (time : ℤ)
  | noteOn (note : ℤ) (velocity : ℤ) (time : ℤ)
  | noteOff (note : ℤ) (velocity : ℤ) (time : ℤ)
  | setTempo (tempo : ℤ) (time : ℤ)
deriving DecidableEq

/-- Whether a message is a `set_tempo` meta message. -/
def Msg.isSetTempo : Msg → Bool
  | .setTempo _ _ => true
  | _ => false

/-- A track contains no `set_tempo` meta message. -/
def noTempoEvents (ms : List Msg) : Bool := ms.all (fun m => !m.isSetTempo)

/-- `midi.ticks_per_beat` of a fresh `MidiFile()` (mido default, main.py
line 66). -/
def ticks_per_beat : ℤ := 480

/-- Tick count of a duration: `int(ticks_per_beat * duration)` (main.py
line 84). -/
def duration_ticks_of (duration : ℚ) : ℤ := pyTruncInt ((ticks_per_beat : ℚ) * duration)

/-- The loop of main.py lines 88-94: resolve each token, catching only
`ValueError` (a failing token contributes nothing), dropping Python `None`
results (rests), and letting any other exception propagate. -/
def resolveNotes : List String → Except PyError (List ℤ)
  | [] => .ok []
  | n :: ns =>
    match note_to_midi n with
    | .error (.valueError _) => resolveNotes ns
    | .error e => .error e
    | .ok none => resolveNotes ns
    | .ok (some k) =>
      match resolveNotes ns with
      | .error e => .error e
      | .ok ks => .ok (k :: ks)

/-- `line.strip().split()` (main.py line 71). -/
def lineFields (line : String) : List String := pySplitWs (pyStrip line)

/-- `[n.strip() for n in notes_part.split(',')]` (main.py line 81). -/
def lineTokens (notes_part : String) : List String :=
  (pySplitChar ',' notes_part).map pyStrip

/-- `int(parts[2]) if len(parts) > 2 else 64` (main.py line 79), given the
fields after the first two; the `ValueError` of a malformed velocity is not
caught anywhere in `parse_text_to_midi`. -/
def velocityOf (rest : List String) : Except PyError ℤ :=
  match rest with
  | [] => .ok 64
  | velStr :: _ => parseIntE velStr

/-- Event emission for one line (main.py lines 96-105): a bare
`note_off n=0 v=0` carrying the whole delta for an empty chord, otherwise all
`note_on`s at delta 0 followed by the `note_off`s, of which only the one at
index 0 carries the delta. -/
def emitChord (velocity duration_ticks : ℤ) (midi_notes : List ℤ) : List Msg :=
  if midi_notes = [] then [Msg.noteOff 0 0 duration_ticks]
  else
    (midi_notes.map fun k => Msg.noteOn k velocity 0) ++
      (midi_notes.enum.map fun p =>
        Msg.noteOff p.2 velocity (if p.1 = 0 then duration_ticks else 0))

/-- Body of the per-line processing once the line has at least two fields
(main.py lines 74-105): parse the duration (a `ValueError` skips the line),
parse the optional velocity (uncaught on failure), resolve the note tokens,
and emit the events. -/
def processFields (notes_part durStr : String) (rest : List String) :
    Except PyError (List Msg) :=
  match parseFloat? durStr with
  | none => .ok []
  | some duration =>
    match velocityOf rest with
    | .error e => .error e
    | .ok velocity =>
      match resolveNotes (lineTokens notes_part) with
      | .error e => .error e
      | .ok midi_notes => .ok (emitChord velocity (duration_ticks_of duration) midi_notes)

/-- One iteration of the line loop (main.py lines 68-105): blank lines and
lines with fewer than two fields are skipped. -/
def processLine (line : String) : Except PyError (List Msg) :=
  if (pyStrip line).data = [] then .ok []
  else
    match lineFields line with
    | notes_part :: durStr :: rest => processFields notes_part durStr rest
    | _ => .ok []

/-- The line loop threaded over the growing track (main.py lines 68-105):
the first uncaught exception aborts the whole compile. -/
def compileLines : List String → List Msg → Except PyError (List Msg)
  | [], acc => .ok acc
  | l :: ls, acc =>
    match processLine l with
    | .error e => .error e
    | .ok ms => compileLines ls (acc ++ ms)

/-- mido `bpm2tempo`: microseconds per beat, `none` modelling the
`ZeroDivisionError` at `bpm = 0`. -/
def bpm2tempo (bpm : ℤ) : Option ℤ :=
  if bpm = 0 then none else some (round ((60000000 : ℚ) / (bpm : ℚ)))

/-- Model of `parse_text_to_midi` (main.py lines 59-107): compute the tempo
(BOUND BUT NEVER APPENDED in main.py), append the `program_change`, then fold
the line loop over `text.strip().splitlines()`.  The result is the message
list of the single track. -/
def parse_text_to_midi (text : String) (bpm : ℤ) : Except PyError (List Msg) :=
  match bpm2tempo bpm with
  | none => .error .zeroDivisionError
  | some _tempo =>
    compileLines (pySplitlines (pyStrip text)) [Msg.programChange 0 0]

/-- A note token whose resolution cannot abort the compile: `note_to_midi`
returns a value or raises the `ValueError` that main.py catches per token. -/
def tokenSafe (t : String) : Bool :=
  match note_to_midi t with
  | .ok _ => true
  | .error (.valueError _) => true
  | .error _ => false

/-- A line that cannot abort the compile: either it is skipped (blank, fewer
than two fields, malformed duration) or its velocity field parses and every
note token is `tokenSafe`. -/
def lineSafe (line : String) : Bool :=
  match lineFields line with
  | notes_part :: durStr :: rest =>
    match parseFloat? durStr with
    | none => true
    | some _ =>
      (match rest with
       | [] => true
       | velStr :: _ =>
         match parseIntE velStr with
         | .ok _ => true
         | .error _ => false) &&
      (lineTokens notes_part).all tokenSafe
  | _ => true

set_option maxRecDepth 100000

/-! ### Note resolver lemmas -/

/-- Batteries `Rat.floor` agrees with the Mathlib floor. -/
lemma rat_floor_eq_int_floor (q : ℚ) : q.floor = ⌊q⌋ :=
  (Rat.floor_def' q).trans Rat.floor_def.symm

/-- A successful pitched resolution always returns a pitch present in
`note_map`. -/
lemma normalize_ok_some {s p : String} {o : ℤ}
    (h : normalize_note_name s = .ok (p, some o)) :
    ∃ off, note_map_find p = some off := by
  simp only [normalize_note_name] at h
  split at h
  · exact absurd h (by simp)
  · split at h
    · exact absurd h (by simp)
    · split at h
      · exact absurd h (by simp)
      · rename_i off hfind
        injection h with h1
        injection h1 with hpe hoe
        exact ⟨off, hpe ▸ hfind⟩

/-- The rest branch of `normalize_note_name` (main.py lines 18-20). -/
lemma normalize_rest {s : String}
    (h : pyUpper (pyStrip s) = "R" ∨ pyUpper (pyStrip s) = "REST") :
    normalize_note_name s = .ok ("R", none) := by
  simp only [normalize_note_name, if_pos h]

/-- Claim C3: for every pitched token accepted by the grammar, the numeric key
produced by `note_to_midi` equals `12 + offset + 12 * octave`, where `offset`
is the pitch class of the resolved (sharp-based) spelling in `note_map` and
`octave` is the token's octave digit. -/
theorem pitched_key_formula (s p : String) (o : ℤ)
    (h : normalize_note_name s = .ok (p, some o)) :
    ∃ off, note_map_find p = some off ∧ note_to_midi s = .ok (some (12 + off + 12 * o)) := by
  obtain ⟨off, hoff⟩ := normalize_ok_some h
  refine ⟨off, hoff, ?_⟩
  have hs : s ≠ "R" := by
    intro he
    subst he
    rw [normalize_rest (Or.inl (by with_unfolding_all rfl))] at h
    exact absurd h (by simp)
  simp only [note_to_midi, if_neg hs, h, hoff]

/-- Witness for C3 at the token `C4`: key `12 + 0 + 12 * 4 = 60`. -/
theorem pitched_key_formula_witness :
    ∃ off, note_map_find "C" = some off ∧ note_to_midi "C4" = .ok (some (12 + off + 12 * 4)) :=
  pitched_key_formula "C4" "C" 4 (by with_unfolding_all decide)

/-- Claim C5: every flat-spelled pitched token resolves like the sharp
spelling given by the fixed enharmonic table, for every letter A-G and every
octave digit. -/
theorem flat_collapses_to_sharp (L : Char) (hL : L ∈ ['A', 'B', 'C', 'D', 'E', 'F', 'G'])
    (n : ℕ) (hn : n < 10) :
    normalize_note_name ⟨[L, 'B', Char.ofNat (48 + n)]⟩ =
      normalize_note_name (flat_to_sharp ⟨[L]⟩ ++ ⟨[Char.ofNat (48 + n)]⟩) := by
  interval_cases n <;> fin_cases hL <;> with_unfolding_all decide

/-- Witness for C5: `resolve("Db4") = resolve("C#4")`. -/
theorem flat_collapses_to_sharp_witness :
    normalize_note_name "DB4" = normalize_note_name "C#4" := by
  with_unfolding_all exact flat_collapses_to_sharp 'D' (by decide) 4 (by decide)

/-- A token outside the spec grammar is not matched by the regex of main.py. -/
lemma matchNoteGroups_eq_none {t : String} (hg : specNoteGrammar t = false) :
    matchNoteGroups t = none := by
  obtain ⟨cs⟩ := t
  simp only [specNoteGrammar] at hg
  simp only [matchNoteGroups]
  rcases cs with _ | ⟨a, _ | ⟨b, _ | ⟨c, _ | ⟨d, rest⟩⟩⟩⟩
  · rfl
  · rfl
  · have hg2 : (isPitchLetter a && b.isDigit) = false := hg
    simp [hg2]
  · have hg2 : (isPitchLetter a && (b == '#' || b == 'B') && c.isDigit) = false := hg
    simp [hg2]
  · rfl

/-- Claim C7: the resolver rejects, with the invalid-note-format ValueError,
every non-rest token that fails the spec grammar (one letter A-G, optional
single accidental, one mandatory octave digit). -/
theorem invalid_format_rejected (s : String)
    (hr : pyUpper (pyStrip s) ≠ "R") (hrest : pyUpper (pyStrip s) ≠ "REST")
    (hg : specNoteGrammar (pyUpper (pyStrip s)) = false) :
    normalize_note_name s = .error (.valueError (invalidNoteFormatMsg (pyUpper (pyStrip s)))) := by
  have hor : ¬(pyUpper (pyStrip s) = "R" ∨ pyUpper (pyStrip s) = "REST") := by
    rintro (h | h)
    · exact hr h
    · exact hrest h
  simp only [normalize_note_name, if_neg hor, matchNoteGroups_eq_none hg]

/-- Witness for C7: `H4`, `C`, `C44` and `C#b4` all fail with the
invalid-note-format error. -/
theorem invalid_format_rejected_witness :
    normalize_note_name "H4" = .error (.valueError (invalidNoteFormatMsg "H4")) ∧
    normalize_note_name "C" = .error (.valueError (invalidNoteFormatMsg "C")) ∧
    normalize_note_name "C44" = .error (.valueError (invalidNoteFormatMsg "C44")) ∧
    normalize_note_name "C#b4" = .error (.valueError (invalidNoteFormatMsg "C#B4")) := by
  with_unfolding_all exact
    ⟨invalid_format_rejected "H4" (by decide) (by decide) (by decide),
     invalid_format_rejected "C" (by decide) (by decide) (by decide),
     invalid_format_rejected "C44" (by decide) (by decide) (by decide),
     invalid_format_rejected "C#b4" (by decide) (by decide) (by decide)⟩

/-- Claim C8: every string whose trimmed, uppercased form is `R` or `REST`
resolves to the rest marker (Python `('R', None)`), not a pitched note and
not an error. -/
theorem rest_marker_returned (s : String)
    (h : pyUpper (pyStrip s) = "R" ∨ pyUpper (pyStrip s) = "REST") :
    normalize_note_name s = .ok ("R", none) :=
  normalize_rest h

/-- Witness for C8 at `" r "` and `"ReSt"`. -/
theorem rest_marker_returned_witness :
    normalize_note_name " r " = .ok ("R", none) ∧
      normalize_note_name "ReSt" = .ok ("R", none) :=
  ⟨rest_marker_returned " r " (by with_unfolding_all decide),
   rest_marker_returned "ReSt" (by with_unfolding_all decide)⟩

/-! ### Score compiler lemmas -/

/-- A blank line has no fields. -/
lemma lineFields_of_blank {line : String} (h : (pyStrip line).data = []) :
    lineFields line = [] := by
  simp only [lineFields, pySplitWs, h]
  rfl

/-- A line with no fields is skipped. -/
lemma processLine_nil {line : String} (hf : lineFields line = []) :
    processLine line = .ok [] := by
  simp only [processLine]
  split
  · rfl
  · rw [hf]

/-- A line with a single field is skipped (main.py lines 72-73). -/
lemma processLine_single {line f : String} (hf : lineFields line = [f]) :
    processLine line = .ok [] := by
  simp only [processLine]
  split
  · rfl
  · rw [hf]

/-- A line with at least two fields is handled by `processFields`. -/
lemma processLine_fields {line notes_part durStr : String} {rest : List String}
    (hf : lineFields line = notes_part :: durStr :: rest) :
    processLine line = processFields notes_part durStr rest := by
  have hb : ¬((pyStrip line).data = []) := by
    intro h
    rw [lineFields_of_blank h] at hf
    cases hf
  simp only [processLine, if_neg hb, hf]

/-- Emission for an empty chord (main.py lines 96-98). -/
lemma emitChord_nil (v dt : ℤ) : emitChord v dt [] = [Msg.noteOff 0 0 dt] := rfl

/-- Emission for a nonempty chord: all key-downs at delta 0, then the key-ups,
the first with the whole delta and the remaining ones with delta 0. -/
lemma emitChord_cons (v dt k0 : ℤ) (ks : List ℤ) :
    emitChord v dt (k0 :: ks) =
      ((k0 :: ks).map fun k => Msg.noteOn k v 0) ++
        Msg.noteOff k0 v dt :: ks.map (fun k => Msg.noteOff k v 0) := by
  have henum : ∀ (l : List ℤ) (n : ℕ), n ≠ 0 →
      (l.enumFrom n).map (fun p => Msg.noteOff p.2 v (if p.1 = 0 then dt else 0)) =
        l.map (fun k => Msg.noteOff k v 0) := by
    intro l
    induction l with
    | nil => intro n _; rfl
    | cons a as ih =>
      intro n hn
      simp only [List.enumFrom, List.map_cons, if_neg hn, ih (n + 1) (Nat.succ_ne_zero n)]
  simp only [emitChord, if_neg (List.cons_ne_nil k0 ks)]
  simp only [List.enum, List.enumFrom, List.map_cons]
  rw [henum ks 1 one_ne_zero]
  simp

/-- Claim C2: a line whose chord resolves to at least one key emits exactly one
`note_on` per key, all at delta 0 with the line velocity, followed by exactly
one `note_off` per key, of which only the first carries the duration delta and
the rest carry delta 0. -/
theorem chord_emission (line notes_part durStr : String) (rest : List String)
    (d : ℚ) (v k0 : ℤ) (ks : List ℤ)
    (hf : lineFields line = notes_part :: durStr :: rest)
    (hd : parseFloat? durStr = some d)
    (hv : velocityOf rest = .ok v)
    (hks : resolveNotes (lineTokens notes_part) = .ok (k0 :: ks)) :
    processLine line = .ok
      (((k0 :: ks).map fun k => Msg.noteOn k v 0) ++
        Msg.noteOff k0 v (duration_ticks_of d) :: ks.map (fun k => Msg.noteOff k v 0)) := by
  rw [processLine_fields hf]
  simp only [processFields, hd, hv, hks, emitChord_cons]

/-- Witness for C2 at the line `C4,E4,G4 2.0 100`: three key-downs at delta 0
with velocity 100, then key-ups with deltas 960, 0, 0. -/
theorem chord_emission_witness :
    processLine "C4,E4,G4 2.0 100" = .ok
      [Msg.noteOn 60 100 0, Msg.noteOn 64 100 0, Msg.noteOn 67 100 0,
        Msg.noteOff 60 100 960, Msg.noteOff 64 100 0, Msg.noteOff 67 100 0] := by
  have h := chord_emission "C4,E4,G4 2.0 100" "C4,E4,G4" "2.0" ["100"] 2 100 60 [64, 67]
    (by with_unfolding_all decide) (by with_unfolding_all decide)
    (by with_unfolding_all decide) (by with_unfolding_all decide)
  exact h.trans (by with_unfolding_all decide)

/-- Claim C6: a line whose chord resolves to zero keys (a rest) emits no
key-down and exactly one zero-velocity `note_off` carrying the whole delta. -/
theorem rest_line_single_off (line notes_part durStr : String) (rest : List String)
    (d : ℚ) (v : ℤ)
    (hf : lineFields line = notes_part :: durStr :: rest)
    (hd : parseFloat? durStr = some d)
    (hv : velocityOf rest = .ok v)
    (hks : resolveNotes (lineTokens notes_part) = .ok []) :
    processLine line = .ok [Msg.noteOff 0 0 (duration_ticks_of d)] := by
  rw [processLine_fields hf]
  simp only [processFields, hd, hv, hks, emitChord_nil]

/-- Witness for C6 at the line `R 1.0`: a single zero-velocity off event with
delta 480. -/
theorem rest_line_single_off_witness :
    processLine "R 1.0" = .ok [Msg.noteOff 0 0 480] := by
  have h := rest_line_single_off "R 1.0" "R" "1.0" [] 1 64
    (by with_unfolding_all decide) (by with_unfolding_all decide)
    (by with_unfolding_all decide) (by with_unfolding_all decide)
  exact h.trans (by with_unfolding_all decide)

/-- Counterexample to claim C4 as stated: at duration `0.001953125` beats
(the dyadic rational 1/512, exactly representable in binary64) the code's
`int(ticks_per_beat * duration)` truncates `0.9375` to `0` ticks, while the
claimed `round(ticksPerBeat * durationBeats)` would give `1`. -/
theorem duration_rounding_cex :
    parseFloat? "0.001953125" = some (mkRat 1 512) ∧
    duration_ticks_of (mkRat 1 512) = 0 ∧
    processLine "C4 0.001953125" = .ok [Msg.noteOn 60 64 0, Msg.noteOff 60 64 0] ∧
    (ticks_per_beat : ℚ) = 480 ∧
    round ((480 : ℚ) * mkRat 1 512) = 1 := by
  refine ⟨by with_unfolding_all decide, by with_unfolding_all decide,
    by with_unfolding_all decide, by norm_num [ticks_per_beat], ?_⟩
  rw [round_eq]
  norm_num

/-- Claim C4 amended: the tick length of a parsed duration `d` is
`int(ticks_per_beat * d)`, i.e. truncation toward zero, which for the
nonnegative durations equals the floor (not the nearest integer). -/
theorem duration_ticks_truncates (d : ℚ) (hd : 0 ≤ d) :
    duration_ticks_of d = ⌊(ticks_per_beat : ℚ) * d⌋ := by
  have h480 : (0 : ℚ) ≤ (ticks_per_beat : ℚ) := by norm_num [ticks_per_beat]
  have h0 : 0 ≤ (ticks_per_beat : ℚ) * d := mul_nonneg h480 hd
  simp only [duration_ticks_of, pyTruncInt, if_pos h0]
  exact rat_floor_eq_int_floor _

/-- Witness for the amended C4 at `d = 1/512`. -/
theorem duration_ticks_truncates_witness :
    duration_ticks_of (mkRat 1 512) = ⌊(ticks_per_beat : ℚ) * mkRat 1 512⌋ :=
  duration_ticks_truncates (mkRat 1 512) (by with_unfolding_all decide)

/-- Chord emission never produces a `set_tempo` message. -/
lemma emitChord_no_tempo (v dt : ℤ) (ks : List ℤ) :
    noTempoEvents (emitChord v dt ks) = true := by
  simp only [noTempoEvents, List.all_eq_true]
  intro m hm
  simp only [emitChord] at hm
  split at hm
  · rw [List.mem_singleton.mp hm]
    rfl
  · rcases List.mem_append.mp hm with h | h
    · obtain ⟨k, -, rfl⟩ := List.mem_map.mp h
      rfl
    · obtain ⟨p, -, rfl⟩ := List.mem_map.mp h
      rfl

/-- No line ever contributes a `set_tempo` message. -/
lemma processLine_no_tempo {line : String} {ms : List Msg}
    (h : processLine line = .ok ms) : noTempoEvents ms = true := by
  simp only [processLine] at h
  split at h
  · cases h
    rfl
  · split at h
    · simp only [processFields] at h
      split at h
      · cases h
        rfl
      · split at h
        · cases h
        · split at h
          · cases h
          · cases h
            exact emitChord_no_tempo _ _ _
    · cases h
      rfl

/-- The line fold preserves the absence of `set_tempo` messages. -/
lemma compileLines_no_tempo :
    ∀ (ls : List String) (acc ms : List Msg),
      noTempoEvents acc = true → compileLines ls acc = .ok ms → noTempoEvents ms = true
  | [], acc, ms, hacc, h => by
    cases h
    exact hacc
  | l :: ls, acc, ms, hacc, h => by
    simp only [compileLines] at h
    split at h
    · cases h
    · rename_i ms2 hline
      refine compileLines_no_tempo ls (acc ++ ms2) ms ?_ h
      simp only [noTempoEvents, List.all_append, Bool.and_eq_true]
      exact ⟨hacc, processLine_no_tempo hline⟩

/-- Claim C1 (a code bug in main.py): contrary to the claim, the track
produced by `parse_text_to_midi` never contains a tempo meta-event, for any
input text and any bpm — main.py line 63 computes `bpm2tempo(bpm)` into a
variable it never uses and never appends a `set_tempo` message, so the
microseconds-per-beat derived from the bpm argument is not decodable from the
stream. -/
theorem no_tempo_event_in_track (text : String) (bpm : ℤ) (ms : List Msg)
    (h : parse_text_to_midi text bpm = .ok ms) : noTempoEvents ms = true := by
  simp only [parse_text_to_midi] at h
  split at h
  · cases h
  · exact compileLines_no_tempo (pySplitlines (pyStrip text)) [Msg.programChange 0 0] ms rfl h

/-- Witness for C1 at `"C4 1.0"`, bpm 90: the full track is the program
change and the note pair, with no tempo event. -/
theorem no_tempo_event_in_track_witness :
    noTempoEvents [Msg.programChange 0 0, Msg.noteOn 60 64 0, Msg.noteOff 60 64 480] = true :=
  no_tempo_event_in_track "C4 1.0" 90
    [Msg.programChange 0 0, Msg.noteOn 60 64 0, Msg.noteOff 60 64 480]
    (by with_unfolding_all decide)

/-- Counterexample to claim C9 as stated: the text `"C4 1.0\nREST 1.0"`
contains the well-formed line `C4 1.0` (compiled successfully on its own by
the first conjunct), yet the whole compile propagates an uncaught `KeyError`
instead of returning a stream. -/
theorem error_swallowing_cex :
    parse_text_to_midi "C4 1.0" 90 =
      .ok [Msg.programChange 0 0, Msg.noteOn 60 64 0, Msg.noteOff 60 64 480] ∧
    parse_text_to_midi "C4 1.0\nREST 1.0" 90 = .error (.keyError "R") := by
  constructor
  · with_unfolding_all decide
  · with_unfolding_all decide

/-- Tokens whose resolution is a value or a caught `ValueError` never abort
the note loop. -/
lemma resolveNotes_ok_of_safe :
    ∀ ts : List String, (∀ t ∈ ts, tokenSafe t = true) → ∃ ks, resolveNotes ts = .ok ks
  | [], _ => ⟨[], rfl⟩
  | t :: ts, h => by
    have ht := h t (List.mem_cons_self t ts)
    obtain ⟨ks, hks⟩ := resolveNotes_ok_of_safe ts (fun u hu => h u (List.mem_cons_of_mem t hu))
    cases hm : note_to_midi t with
    | ok v =>
      cases v with
      | none =>
        refine ⟨ks, ?_⟩
        simp only [resolveNotes, hm]
        exact hks
      | some k =>
        refine ⟨k :: ks, ?_⟩
        simp only [resolveNotes, hm, hks]
    | error e =>
      cases e with
      | valueError m =>
        refine ⟨ks, ?_⟩
        simp only [resolveNotes, hm]
        exact hks
      | keyError kk =>
        simp only [tokenSafe, hm] at ht
        exact Bool.noConfusion ht
      | typeError m =>
        simp only [tokenSafe, hm] at ht
        exact Bool.noConfusion ht
      | zeroDivisionError =>
        simp only [tokenSafe, hm] at ht
        exact Bool.noConfusion ht

/-- A `lineSafe` line processes without an uncaught exception. -/
lemma processLine_safe {line : String} (h : lineSafe line = true) :
    ∃ ms, processLine line = .ok ms := by
  rcases hf : lineFields line with _ | ⟨f, _ | ⟨dstr, rest⟩⟩
  · exact ⟨[], processLine_nil hf⟩
  · exact ⟨[], processLine_single hf⟩
  · rw [processLine_fields hf]
    simp only [lineSafe, hf] at h
    rcases hd : parseFloat? dstr with _ | d
    · refine ⟨[], ?_⟩
      simp only [processFields, hd]
    · rw [hd] at h
      simp only [Bool.and_eq_true] at h
      obtain ⟨hv, hts⟩ := h
      obtain ⟨ks, hks⟩ := resolveNotes_ok_of_safe (lineTokens f) (List.all_eq_true.mp hts)
      have hvel : ∃ v, velocityOf rest = .ok v := by
        rcases rest with _ | ⟨velStr, rr⟩
        · exact ⟨64, rfl⟩
        · have hv2 : (match parseIntE velStr with
              | Except.ok _ => true
              | Except.error _ => false) = true := hv
          split at hv2
          · rename_i v hpe
            exact ⟨v, by simp only [velocityOf, hpe]⟩
          · exact absurd hv2 (by simp)
      obtain ⟨v, hvv⟩ := hvel
      refine ⟨emitChord v (duration_ticks_of d) ks, ?_⟩
      simp only [processFields, hd, hvv, hks]

/-- The line fold succeeds when every line processes successfully. -/
lemma compileLines_ok_of_safe :
    ∀ ls : List String, (∀ l ∈ ls, ∃ ms, processLine l = .ok ms) →
      ∀ acc, ∃ ms, compileLines ls acc = .ok ms
  | [], _, acc => ⟨acc, rfl⟩
  | l :: ls, h, acc => by
    obtain ⟨ms1, hms1⟩ := h l (List.mem_cons_self l ls)
    obtain ⟨ms, hms⟩ :=
      compileLines_ok_of_safe ls (fun u hu => h u (List.mem_cons_of_mem l hu)) (acc ++ ms1)
    refine ⟨ms, ?_⟩
    simp only [compileLines, hms1]
    exact hms

/-- Claim C9 amended: duration `ValueError`s skip the line and note-token
`ValueError`s drop the token, so the compile returns a stream whenever every
line is `lineSafe` (its velocity field, if present, parses as an integer and
no note token raises a non-`ValueError`); the uncaught `KeyError` of non-`R`
rest spellings and the uncaught velocity `ValueError` are the exceptions to
the claimed swallowing policy. -/
theorem compile_ok_of_lines_safe (text : String) (bpm : ℤ) (hbpm : bpm ≠ 0)
    (h : ∀ l ∈ pySplitlines (pyStrip text), lineSafe l = true) :
    ∃ ms, parse_text_to_midi text bpm = .ok ms := by
  obtain ⟨ms, hms⟩ := compileLines_ok_of_safe (pySplitlines (pyStrip text))
    (fun l hl => processLine_safe (h l hl)) [Msg.programChange 0 0]
  refine ⟨ms, ?_⟩
  simp only [parse_text_to_midi, bpm2tempo, if_neg hbpm]
  exact hms

/-- Witness for the amended C9: a text with a malformed duration line, a
one-field line, a blank line and an invalid note token still compiles. -/
theorem compile_ok_of_lines_safe_witness :
    ∃ ms, parse_text_to_midi "C4 1.0\nC4 fast\n\nC4\nX9,C4 1.0 100" 90 = .ok ms :=
  compile_ok_of_lines_safe "C4 1.0\nC4 fast\n\nC4\nX9,C4 1.0 100" 90 (by decide)
    (by with_unfolding_all decide)

/-- A rest spelling other than the exact token `R` reaches
`note_map['R']` and raises `KeyError('R')`: `note_to_midi` short-circuits only
on the raw string `R`, while the resolver maps every trimmed uppercased
`R`/`REST` spelling to the rest marker, which is not in `note_map`. -/
lemma note_to_midi_rest_spelling {t : String}
    (h : pyUpper (pyStrip t) = "R" ∨ pyUpper (pyStrip t) = "REST") (hne : t ≠ "R") :
    note_to_midi t = .error (.keyError "R") := by
  simp only [note_to_midi, if_neg hne, normalize_rest h]
  with_unfolding_all rfl

/-- A line whose lines have all processed successfully so far aborts the fold
with the first uncaught exception. -/
lemma compileLines_error :
    ∀ (pre post : List String) (line : String) (e : PyError) (acc : List Msg),
      (∀ l ∈ pre, ∃ ms, processLine l = .ok ms) → processLine line = .error e →
      compileLines (pre ++ line :: post) acc = .error e
  | [], post, line, e, acc, _, hline => by
    simp only [List.nil_append, compileLines, hline]
  | p :: pre, post, line, e, acc, hpre, hline => by
    obtain ⟨ms1, hms1⟩ := hpre p (List.mem_cons_self p pre)
    simp only [List.cons_append, compileLines, hms1]
    exact compileLines_error pre post line e (acc ++ ms1)
      (fun u hu => hpre u (List.mem_cons_of_mem p hu)) hline

/-- Claim C10: a line whose notes field is a rest spelling other than the
exact string `R` (for example `REST`, `rest`, `r`) raises an uncaught
`KeyError` — the per-token handler catches only `ValueError` — so the whole
compile aborts instead of emitting a rest event. -/
theorem rest_spelling_keyerror (line t durStr : String) (rest : List String)
    (text : String) (bpm : ℤ) (pre post : List String) (v : ℤ)
    (hf : lineFields line = t :: durStr :: rest)
    (hd : (parseFloat? durStr).isSome = true)
    (hv : velocityOf rest = .ok v)
    (htok : lineTokens t = [t])
    (hrest : pyUpper (pyStrip t) = "R" ∨ pyUpper (pyStrip t) = "REST")
    (hne : t ≠ "R")
    (hbpm : bpm ≠ 0)
    (hsplit : pySplitlines (pyStrip text) = pre ++ line :: post)
    (hpre : ∀ l ∈ pre, ∃ ms, processLine l = .ok ms) :
    processLine line = .error (.keyError "R") ∧
      parse_text_to_midi text bpm = .error (.keyError "R") := by
  have hkey := note_to_midi_rest_spelling hrest hne
  have hres : resolveNotes (lineTokens t) = .error (.keyError "R") := by
    rw [htok]
    simp only [resolveNotes, hkey]
  have hline : processLine line = .error (.keyError "R") := by
    rw [processLine_fields hf]
    obtain ⟨d, hd2⟩ := Option.isSome_iff_exists.mp hd
    simp only [processFields, hd2, hv, hres]
  refine ⟨hline, ?_⟩
  simp only [parse_text_to_midi, bpm2tempo, if_neg hbpm, hsplit]
  exact compileLines_error pre post line _ _ hpre hline

/-- Witness for C10 at the lines `REST 1.0`, `rest 1.0` and `r 1.0`. -/
theorem rest_spelling_keyerror_witness :
    (processLine "REST 1.0" = .error (.keyError "R") ∧
      parse_text_to_midi "REST 1.0" 90 = .error (.keyError "R")) ∧
    (processLine "rest 1.0" = .error (.keyError "R") ∧
      parse_text_to_midi "rest 1.0" 90 = .error (.keyError "R")) ∧
    (processLine "r 1.0" = .error (.keyError "R") ∧
      parse_text_to_midi "r 1.0" 90 = .error (.keyError "R")) := by
  refine ⟨?_, ?_, ?_⟩
  · exact rest_spelling_keyerror "REST 1.0" "REST" "1.0" [] "REST 1.0" 90 [] [] 64
      (by with_unfolding_all decide) (by with_unfolding_all decide)
      (by with_unfolding_all decide) (by with_unfolding_all decide)
      (by with_unfolding_all decide) (by decide) (by decide)
      (by with_unfolding_all decide) (fun l hl => absurd hl (List.not_mem_nil l))
  · exact rest_spelling_keyerror "rest 1.0" "rest" "1.0" [] "rest 1.0" 90 [] [] 64
      (by with_unfolding_all decide) (by with_unfolding_all decide)
      (by with_unfolding_all decide) (by with_unfolding_all decide)
      (by with_unfolding_all decide) (by decide) (by decide)
      (by with_unfolding_all decide) (fun l hl => absurd hl (List.not_mem_nil l))
  · exact rest_spelling_keyerror "r 1.0" "r" "1.0" [] "r 1.0" 90 [] [] 64
      (by with_unfolding_all decide) (by with_unfolding_all decide)
      (by with_unfolding_all decide) (by with_unfolding_all decide)
      (by with_unfolding_all decide) (by decide) (by decide)
      (by with_unfolding_all decide) (fun l hl => absurd hl (List.not_mem_nil l))
